import Mathlib

/-!
# Verification of the hyperfox inspection API (`service.go`)

A shallow embedding of the read-only inspection service in `service.go`:
the hex codec used by the transaction loader (`getCaptureRecord`), the
filename sanitizer and content reconstructor (`replyBinary`), the
search/pagination query builder (`capturesHandler`), and the
error-propagation shape of the handlers.

Byte strings are modelled as `List Byte` with `Byte := Fin 256`; Go strings
that only carry text are modelled as Lean `String`.
-/

namespace Hyperfox

/-- A single octet, as stored in record bodies and emitted on the wire. -/
abbrev Byte := Fin 256

/-- The bytes of an ASCII string (Go strings are byte strings; every
literal used by `service.go` is ASCII). -/
def strBytes (s : String) : List Byte :=
  s.data.map fun c => ⟨c.toNat % 256, Nat.mod_lt _ (by norm_num)⟩

/-! ## Hex codec

`getCaptureRecord` selects `hex(body)` / `hex(request_body)` from the store
(SQL `hex()` produces two hex digits per byte) and decodes them with Go's
`encoding/hex.DecodeString`, which fails on an odd-length input or a
non-hex digit and accepts both letter cases. -/

/-- The lowercase hex digit character for a nibble: `0`-`9` for values
below ten, `a`-`f` above. -/
def hexDigitChar (n : Fin 16) : Char :=
  if n.val < 10 then Char.ofNat (48 + n.val) else Char.ofNat (87 + n.val)

/-- Hex encoding of one byte: high nibble then low nibble. -/
def encodeByte (b : Byte) : List Char :=
  [hexDigitChar ⟨b.val / 16, by omega⟩, hexDigitChar ⟨b.val % 16, by omega⟩]

/-- Hex encoding of a byte string (as produced by SQL `hex()` up to letter
case, and by Go `hex.EncodeToString`). -/
def hexEncode (bs : List Byte) : List Char :=
  (bs.map encodeByte).flatten

/-- Value of one hex digit character, accepting both cases
(Go `encoding/hex.fromHexChar`).  Character ranges are stated on the
code point, exactly the byte ranges Go compares. -/
def fromHexChar (c : Char) : Option (Fin 16) :=
  if h : 48 ≤ c.toNat ∧ c.toNat ≤ 57 then        -- between char 0 and char 9
    some ⟨c.toNat - 48, by omega⟩
  else if h : 97 ≤ c.toNat ∧ c.toNat ≤ 102 then  -- between chars a and f
    some ⟨c.toNat - 97 + 10, by omega⟩
  else if h : 65 ≤ c.toNat ∧ c.toNat ≤ 70 then   -- between chars A and F
    some ⟨c.toNat - 65 + 10, by omega⟩
  else
    none

/-- Hex decoding (Go `hex.DecodeString`): consume two digits per byte;
`none` on an odd-length input or an invalid digit.  (Go returns the bytes
decoded so far next to the error; the caller in `getCaptureRecord` discards
them on any error, so the partial result is not modelled.) -/
def hexDecode : List Char → Option (List Byte)
  | [] => some []
  | [_] => none
  | c1 :: c2 :: rest => do
    let hi ← fromHexChar c1
    let lo ← fromHexChar c2
    let bs ← hexDecode rest
    pure (⟨16 * hi.val + lo.val, by omega⟩ :: bs)

theorem fromHexChar_hexDigitChar (n : Fin 16) :
    fromHexChar (hexDigitChar n) = some n := by
  fin_cases n <;> decide

theorem hexDecode_encodeByte_append (b : Byte) (rest : List Char) :
    hexDecode (encodeByte b ++ rest) =
      (hexDecode rest).map fun bs => b :: bs := by
  have hhi := fromHexChar_hexDigitChar ⟨b.val / 16, by omega⟩
  have hlo := fromHexChar_hexDigitChar ⟨b.val % 16, by omega⟩
  have hb : (⟨16 * (b.val / 16) + b.val % 16, by omega⟩ : Byte) = b :=
    Fin.ext (by simpa using Nat.div_add_mod b.val 16)
  simp only [encodeByte, List.cons_append, List.nil_append, hexDecode,
    hhi, hlo, Option.bind_eq_bind, Option.some_bind, Option.pure_def]
  cases hrest : hexDecode rest with
  | none => simp [hrest]
  | some bs => simp [hrest, hb]

/-- C6: for every byte sequence, encoding it to its hex text
representation and decoding it through the loader's decode step yields
exactly the original byte sequence. -/
theorem hexDecode_hexEncode (bs : List Byte) : hexDecode (hexEncode bs) = some bs := by
  induction bs with
  | nil => rfl
  | cons b rest ih =>
    have : hexEncode (b :: rest) = encodeByte b ++ hexEncode rest := by
      simp [hexEncode]
    rw [this, hexDecode_encodeByte_append, ih]
    rfl

/-! ## Transaction loader (`getCaptureRecord`)

The loader queries the store for one row matched by uuid, with the two body
columns in hex-encoded form, then decodes both.  The store lookup
(`res.One`) either fails or yields a raw row; fields other than the two hex
columns are carried opaquely in `RawMeta`. -/

/-- The non-body columns selected by `getCaptureRecord`, carried through
the loader unchanged. -/
structure RawMeta where
  uuid : String
  origin : String
  method : String
  status : Nat
  contentType : String
  contentLength : Nat
  host : String
  url : String
  path : String
  scheme : String
  dateStart : Nat
  dateEnd : Nat
  timeTaken : Nat
  deriving DecidableEq, Repr

/-- A raw store row as selected by `getCaptureRecord`: metadata plus the
two body columns still in their hex text form (`hex(body)`,
`hex(request_body)`). -/
structure RawRecord where
  meta : RawMeta
  requestHeader : List (String × List String)
  header : List (String × List String)
  requestBodyHex : List Char
  bodyHex : List Char
  deriving DecidableEq, Repr

/-- A fully loaded capture record: bodies decoded to raw bytes. -/
structure Record where
  meta : RawMeta
  requestHeader : List (String × List String)
  header : List (String × List String)
  requestBody : List Byte
  body : List Byte
  deriving DecidableEq, Repr

/-- `getCaptureRecord`: `lookup` is the outcome of the single-row store
fetch (`res.One`), `none` standing for its error; then both hex columns are
decoded, any decode failure failing the whole load. -/
def getCaptureRecord (lookup : Option RawRecord) : Option Record :=
  match lookup with
  | none => none
  | some raw =>
    match hexDecode raw.requestBodyHex with
    | none => none
    | some rb =>
      match hexDecode raw.bodyHex with
      | none => none
      | some b =>
        some ⟨raw.meta, raw.requestHeader, raw.header, rb, b⟩

/-! ## Character-level sanitizers

`service.go` uses four regexes:
`reUnsafeChars = [^0-9a-zA-Z\s\.]` (query sanitizing, replace by a space),
`reUnsafeFile = [^0-9a-zA-Z-_]` (filename sanitizing, replace by a dash),
`reRepeatedDash = -+` and `reRepeatedBlank = \s+` (run collapsing).
Each is embedded as a character-class predicate plus an explicit
run-collapsing recursion; replacing every maximal run matched by `-+`
(resp. `\s+`) with a single output character is exactly what
`ReplaceAllString` does for these patterns. -/

/-- Go regexp `\s`, i.e. the class `[\t\n\f\r ]`. -/
def isGoSpace (c : Char) : Bool :=
  c = ' ' || c = '\t' || c = '\n' || c = Char.ofNat 12 || c = '\r'

/-- The class `[0-9a-zA-Z-_]` of `reUnsafeFile` (its complement is
replaced).  Inside the bracket the dash after `Z` is literal. -/
def isSafeFileChar (c : Char) : Bool :=
  (48 ≤ c.toNat && c.toNat ≤ 57) ||   -- digits
  (97 ≤ c.toNat && c.toNat ≤ 122) ||  -- lowercase
  (65 ≤ c.toNat && c.toNat ≤ 90) ||   -- uppercase
  c = '-' || c = '_'

/-- The class `[0-9a-zA-Z\s\.]` of `reUnsafeChars` (its complement is
replaced). -/
def isQueryAllowed (c : Char) : Bool :=
  (48 ≤ c.toNat && c.toNat ≤ 57) ||
  (97 ≤ c.toNat && c.toNat ≤ 122) ||
  (65 ≤ c.toNat && c.toNat ≤ 90) ||
  isGoSpace c || c = '.'

/-- Replace every maximal nonempty run of characters satisfying `p` by the
single character `out`; the `Bool` argument records whether the previous
character was part of a run.  With `p` matching `-` (resp. whitespace)
this is `ReplaceAllString` for `-+` (resp. `\s+`). -/
def collapseRuns (p : Char → Bool) (out : Char) : Bool → List Char → List Char
  | _, [] => []
  | prev, c :: rest =>
    if p c then
      if prev then collapseRuns p out true rest
      else out :: collapseRuns p out true rest
    else c :: collapseRuns p out false rest

/-- `strings.Trim(s, "-")`: remove leading and trailing dashes. -/
def trimDashes (l : List Char) : List Char :=
  ((l.dropWhile fun c => c = '-').reverse.dropWhile fun c => c = '-').reverse

/-- Go `path.Base`: empty string gives `.`; otherwise strip trailing
slashes, take everything after the last slash, and an all-slash input
gives `/`. -/
def pathBase (s : String) : String :=
  if s.data = [] then "." else
  let stripped := (s.data.reverse.dropWhile fun c => c = '/').reverse
  if stripped = [] then "/" else
  String.mk ((stripped.reverse.takeWhile fun c => c ≠ '/').reverse)

/-- Go `path.Ext`: the suffix starting at the final dot of the final
slash-separated element, empty if that element has no dot. -/
def pathExt (s : String) : String :=
  let seg := s.data.reverse.takeWhile fun c => c ≠ '/'
  let beforeDot := seg.takeWhile fun c => c ≠ '.'
  if beforeDot.length = seg.length then ""
  else String.mk ('.' :: beforeDot.reverse)

/-- The filename computation of `replyBinary` (lines 105-110): basename is
`<host>-<path.Base(path)>`, characters outside `[0-9a-zA-Z-_]` become `-`,
dash runs collapse, outer dashes are trimmed, and `.txt` is appended when
no extension remains. -/
def sanitizeBasename (host pathStr : String) : String :=
  let basename := host ++ "-" ++ pathBase pathStr
  let b1 := basename.data.map fun c => if isSafeFileChar c then c else '-'
  let b2 := String.mk (trimDashes (collapseRuns (fun c => c = '-') '-' false b1))
  if pathExt b2 = "" then b2 ++ ".txt" else b2

/-- The query sanitizing of `capturesHandler` (lines 279-280): characters
outside `[0-9a-zA-Z\s\.]` become a space, then whitespace runs collapse to
one space. -/
def sanitizeQuery (s : String) : String :=
  let s1 := s.data.map fun c => if isQueryAllowed c then c else ' '
  String.mk (collapseRuns isGoSpace ' ' false s1)

/-! ## URL parsing

`replyBinary` parses `record.URL` with Go `net/url.Parse`.  That parser is
external library code; it is modelled here on the two behaviours the
service can encounter: `Parse` rejects any URL containing an ASCII control
character (`stringContainsCTLByte`), and on an absolute
`scheme://host/path?query` URL it yields the host and the path.  Other
corner cases of the Go parser are modelled as a best-effort split that
always succeeds. -/

structure URLParts where
  host : String
  path : String
  deriving DecidableEq, Repr

/-- Whether a string contains an ASCII control byte (Go
`stringContainsCTLByte`: below space, or DEL). -/
def containsCTL (s : String) : Bool :=
  s.data.any fun c => c.toNat < 32 || c.toNat = 127

/-- The characters after the first `://`, if any. -/
def afterSchemeSep : List Char → Option (List Char)
  | [] => none
  | ':' :: '/' :: '/' :: rest => some rest
  | _ :: rest => afterSchemeSep rest

/-- Model of Go `net/url.Parse` restricted to host and path extraction;
see the section comment. -/
def urlParse (s : String) : Option URLParts :=
  if containsCTL s then none
  else
    let cs := s.data
    let afterScheme := (afterSchemeSep cs).getD cs
    let host := afterScheme.takeWhile fun c => c ≠ '/'
    let pathAndQuery := afterScheme.drop host.length
    some ⟨String.mk host, String.mk (pathAndQuery.takeWhile fun c => c ≠ '?')⟩

/-! ## Content reconstructor (`replyBinary`)

The effect of a handler on its `http.ResponseWriter` is modelled as the
status code written (if any), the response headers set, and the bytes
written.  `http.ServeContent` (attachment mode) is abstracted to the plain
full-content 200 response; its conditional/range refinements depend on
request headers none of the claims constrain. -/

structure ResponseEffect where
  status : Option Nat
  headers : List (String × String)
  body : List Byte
  deriving DecidableEq, Repr

/-- A response writer nothing was written to. -/
def emptyEffect : ResponseEffect := ⟨none, [], []⟩

/-- `http.StatusText` for the codes the service emits. -/
def statusTextOf (code : Nat) : String :=
  if code = 500 then "Internal Server Error"
  else if code = 200 then "OK"
  else ""

/-- `replyCode`: write the status code, then its standard phrase as the
body. -/
def replyCodeEffect (code : Nat) : ResponseEffect :=
  ⟨some code, [], strBytes (statusTextOf code)⟩

def writeNone : Nat := 0
def writeWire : Nat := 1
def writeEmbed : Nat := 2
def writeRequestBody : Nat := 4
def writeResponseBody : Nat := 8

/-- `opts&flag > 0` on the `writeOption` bit set. -/
def hasFlag (opts flag : Nat) : Bool := opts &&& flag != 0

/-- The header collection chosen by `replyBinary` (lines 115-121): starts
empty, request headers if the request body is selected, response headers
if the response body is selected (the latter assignment runs second). -/
def selectedHeaders (r : Record) (opts : Nat) : List (String × List String) :=
  if hasFlag opts writeResponseBody then r.header
  else if hasFlag opts writeRequestBody then r.requestHeader
  else []

/-- The wire header block (lines 122-127): one `name: value` CRLF line per
value, in collection order, then a blank CRLF line.  (`http.Header` is a
Go map; the claims only constrain single-name collections, for which the
association-list order is the map's order.) -/
def wireBlock (headers : List (String × List String)) : List Byte :=
  (headers.map fun kv =>
    (kv.2.map fun v => strBytes (kv.1 ++ ": " ++ v ++ "\r\n")).flatten).flatten
  ++ strBytes "\r\n"

/-- The buffer `replyBinary` accumulates (lines 112-137): optional wire
header block, then the selected body.  (Both body flags never hold
together when this runs; the definition keeps the code's two appends.) -/
def buildBuf (r : Record) (opts : Nat) : List Byte :=
  (if hasFlag opts writeWire then wireBlock (selectedHeaders r opts) else [])
  ++ (if hasFlag opts writeRequestBody then r.requestBody else [])
  ++ (if hasFlag opts writeResponseBody then r.body else [])

def contentTypeTextPlain : String := "text/plain; charset=utf-8"

/-- The full effect of `replyBinary` on the response writer. -/
def replyBinary (r : Record) (opts : Nat) : ResponseEffect :=
  if opts = writeNone then emptyEffect
  else if hasFlag opts writeRequestBody && hasFlag opts writeResponseBody then
    replyCodeEffect 500
  else
    match urlParse r.meta.url with
    | none => replyCodeEffect 500
    | some u =>
      let basename := sanitizeBasename u.host u.path
      let buf := buildBuf r opts
      if hasFlag opts writeRequestBody || hasFlag opts writeResponseBody then
        if hasFlag opts writeEmbed then
          ⟨some 200, [("Content-Type", contentTypeTextPlain)], buf⟩
        else
          ⟨some 200,
            [("Content-Disposition", "attachment; filename=\"" ++ basename ++ "\"")],
            buf⟩
      else emptyEffect

/-! ## Search/pagination query builder (`capturesHandler`)

The store is external; it is modelled as a list of rows, with `Find()`
returning them all, `OrderBy("id")` sorting by ascending identifier,
`Where` filtering, `Limit`/`Offset` as `take`/`drop`, and `Count` as the
length of the filtered set (upper.io `Count` ignores limit and offset).
`LIKE "%term%"` is modelled as substring containment on the column, the
spec's stated reading of the store's LIKE. -/

/-- One stored row as seen by the listing (the columns the query
conditions touch, plus the identifier ordering key).  `status` is compared
against a query term, so it is carried as the string the comparison
sees. -/
structure Row where
  id : Nat
  host : String
  origin : String
  path : String
  contentType : String
  method : String
  scheme : String
  status : String
  deriving DecidableEq, Repr

/-- Whether `sub` occurs contiguously inside `l`. -/
def listHasInfix (sub : List Char) : List Char → Bool
  | [] => sub.isEmpty
  | l@(_ :: rest) => sub.isPrefixOf l || listHasInfix sub rest

/-- `column LIKE "%term%"`: the term occurs inside the column value. -/
def hasSub (column term : String) : Bool := listHasInfix term.data column.data

/-- The inner `db.Or` for one term (lines 302-311): four substring
conditions and three equality conditions. -/
def termCond (t : String) (r : Row) : Bool :=
  hasSub r.host t || hasSub r.origin t || hasSub r.path t ||
  hasSub r.contentType t || r.method == t || r.scheme == t || r.status == t

/-- The loop of lines 301-313: starting from the empty `db.Or()`, each
term's condition is disjoined onto the accumulator. -/
def condsOrFold (acc : Row → Bool) : List String → Row → Bool
  | [] => acc
  | t :: ts => condsOrFold (fun r => acc r || termCond t r) ts

/-- The complete `conds` disjunction built from the term list. -/
def buildConds (terms : List String) : Row → Bool :=
  condsOrFold (fun _ => false) terms

def pageSize : Nat := 50

/-- Ascending identifier order on rows. -/
def rowLE (a b : Row) : Prop := a.id ≤ b.id

instance : DecidableRel rowLE := fun a b => Nat.decLe a.id b.id

instance : IsTotal Row rowLE := ⟨fun a b => Nat.le_total a.id b.id⟩

instance : IsTrans Row rowLE := ⟨fun _ _ _ => Nat.le_trans⟩

/-- `OrderBy("id")`: the store's rows in ascending identifier order
(a stable sort, as SQL `ORDER BY`). -/
def sortById (rows : List Row) : List Row := List.insertionSort rowLE rows

/-- Page-number handling of lines 282-290: an unparseable page parameter
leaves the zero value, and any value below 1 becomes 1. -/
def effectivePage (pageParam : Option Nat) : Nat :=
  match pageParam with
  | some p => if p < 1 then 1 else p
  | none => 1

/-- Go `strings.Split(s, " ")`: split on every single space; the empty
string yields one empty field. -/
def splitOnSpace : List Char → List (List Char)
  | [] => [[]]
  | c :: rest =>
    match splitOnSpace rest with
    | [] => [[]]
    | h :: t => if c = ' ' then [] :: h :: t else (c :: h) :: t

/-- The rows matching the (already sanitized) query: all rows in id order,
filtered by the term disjunction unless the query is empty (lines
293-316). -/
def matchingRows (rows : List Row) (qs : String) : List Row :=
  let base := sortById rows
  if qs = "" then base
  else base.filter (buildConds ((splitOnSpace qs.data).map String.mk))

/-- The JSON payload of the listing endpoint (`pullResponse`). -/
structure PullResponse where
  requests : List Row
  pages : Nat
  page : Nat
  deriving DecidableEq, Repr

/-- The success path of `capturesHandler` on raw query string `q` and page
parameter `pageParam` (`none` = unparseable): sanitize, clamp the page,
filter and order, slice one page, and report `ceil(total/50)` pages. -/
def capturesQuery (rows : List Row) (q : String) (pageParam : Option Nat) :
    PullResponse :=
  let page := effectivePage pageParam
  let m := matchingRows rows (sanitizeQuery q)
  { requests := (m.drop (pageSize * (page - 1))).take pageSize
    pages := (m.length + pageSize - 1) / pageSize
    page := page }

/-! ## Error propagation of the handlers

For the error-path claims the two store calls of `capturesHandler` are
abstracted to their outcomes: `allRes` is `res.All` (`none` = failure) and
`countRes` is `res.Count` (`none` = failure).  The code returns 500 when
`res.All` fails (lines 319-323) but only assigns `Pages` when `res.Count`
succeeds (lines 326-328), falling through to the 200 JSON reply with the
zero-value `Pages`. -/

inductive CapturesOutcome where
  | failure (code : Nat)
  | success (requests : List Row) (page pages : Nat)
  deriving DecidableEq, Repr

def capturesHandlerOutcome (allRes : Option (List Row)) (countRes : Option Nat)
    (pageParam : Option Nat) : CapturesOutcome :=
  let page := effectivePage pageParam
  match allRes with
  | none => .failure 500
  | some reqs =>
    .success reqs page
      (match countRes with
       | some c => (c + pageSize - 1) / pageSize
       | none => 0)

/-- `recordHandler`: load the record (store lookup outcome `lookup`), 500
on any load failure, otherwise hand off to `replyBinary` (lines
235-246). -/
def recordHandlerEffect (lookup : Option RawRecord) (opts : Nat) :
    ResponseEffect :=
  match getCaptureRecord lookup with
  | none => replyCodeEffect 500
  | some record => replyBinary record opts

/-! ## Concrete fixtures used by witnesses and counterexamples -/

/-- A record whose request and response header collections are
`{"X-Test": ["1","2"]}` and whose URL parses. -/
def recXTest : Record :=
  ⟨⟨"u2", "o", "GET", 200, "ct", 0, "h", "http://a.b/c", "/c", "http", 0, 0, 0⟩,
    [("X-Test", ["1", "2"])], [("X-Test", ["1", "2"])],
    strBytes "REQBODY", strBytes "RESPBODY"⟩

/-- A record whose stored URL contains a NUL byte, which `url.Parse`
rejects. -/
def recCTL : Record :=
  ⟨⟨"u3", "o", "GET", 200, "ct", 0, "h", String.mk [Char.ofNat 0], "/p", "http", 0, 0, 0⟩,
    [], [], strBytes "REQ", strBytes "RESP"⟩

/-- A raw store row whose `request_body` hex column is corrupt. -/
def rawCorrupt : RawRecord :=
  ⟨⟨"u1", "o", "GET", 200, "ct", 0, "h", "http://a.b/c", "/c", "http", 0, 0, 0⟩,
    [], [], "zz".data, "".data⟩

/-- A two-row store, stored out of identifier order. -/
def rowsTwo : List Row :=
  [⟨2, "h2", "o", "/p", "ct", "GET", "http", "200"⟩,
   ⟨1, "h1", "o", "/q", "ct", "POST", "https", "404"⟩]

/-! ## Claims -/

/-- C7: whenever the hex decode of either body field fails, the
transaction loader returns an error and no transaction value. -/
theorem getCaptureRecord_corrupt_fails (raw : RawRecord)
    (h : hexDecode raw.requestBodyHex = none ∨ hexDecode raw.bodyHex = none) :
    getCaptureRecord (some raw) = none := by
  rcases h with h | h
  · simp [getCaptureRecord, h]
  · cases h1 : hexDecode raw.requestBodyHex <;> simp [getCaptureRecord, h1, h]

theorem getCaptureRecord_corrupt_fails_witness :
    (hexDecode rawCorrupt.requestBodyHex = none ∨
      hexDecode rawCorrupt.bodyHex = none) ∧
    getCaptureRecord (some rawCorrupt) = none :=
  ⟨Or.inl (by decide),
    getCaptureRecord_corrupt_fails rawCorrupt (Or.inl (by decide))⟩

/-- C5 counterexample: the sanitizer maps host `a.b`, path `/c` to
`a-b-c.txt`, not the claimed `a.b-c.txt`: the dot in the host is outside
`[0-9a-zA-Z-_]` and is replaced by a dash. -/
theorem sanitizeBasename_dot_host_counterexample :
    sanitizeBasename "a.b" "/c" = "a-b-c.txt" ∧
    ("a-b-c.txt" : String) ≠ "a.b-c.txt" := by decide

/-- C5 amended: the URL `http://a.b/c?d=e` has host `a.b` and path `/c`,
the sanitizer maps them to basename `a-b-c.txt` (the host's dot becomes a
dash, `.txt` is appended because no extension remains), and the
dash-collapsing step maps the raw candidate `a.b--c` to `a.b-c`. -/
theorem sanitizeBasename_dot_host_amended :
    urlParse "http://a.b/c?d=e" = some ⟨"a.b", "/c"⟩ ∧
    sanitizeBasename "a.b" "/c" = "a-b-c.txt" ∧
    String.mk (collapseRuns (fun c => c = '-') '-' false "a.b--c".data) = "a.b-c" := by
  decide

/-- What C8 describes: characters outside `[0-9a-zA-Z\s.]` are removed,
with a single space left where a contiguous run of removed characters or
whitespace stood. -/
def specSanitizeQuery (s : String) : String :=
  String.mk (collapseRuns (fun c => isGoSpace c || !isQueryAllowed c) ' ' false s.data)

theorem collapseRuns_map_unsafe (l : List Char) (prev : Bool) :
    collapseRuns isGoSpace ' ' prev
        (l.map fun c => if isQueryAllowed c then c else ' ') =
      collapseRuns (fun c => isGoSpace c || !isQueryAllowed c) ' ' prev l := by
  induction l generalizing prev with
  | nil => rfl
  | cons c rest ih =>
    by_cases hA : isQueryAllowed c = true
    · cases hS : isGoSpace c <;>
        simp [collapseRuns, hA, hS, ih]
    · have hS : isGoSpace c = false := by
        cases hgs : isGoSpace c
        · rfl
        · exact absurd (by simp [isQueryAllowed, hgs]) hA
      have hf : isQueryAllowed c = false := by
        cases hqa : isQueryAllowed c
        · rfl
        · exact absurd hqa hA
      cases prev <;> simp [collapseRuns, hf, ih, show isGoSpace ' ' = true by decide]

/-- C8: the query sanitization equals exactly: remove the characters
outside `[0-9a-zA-Z\s.]`, leaving a single space where a contiguous run
of removed characters or whitespace stood. -/
theorem sanitizeQuery_eq_spec (s : String) :
    sanitizeQuery s = specSanitizeQuery s := by
  simp [sanitizeQuery, specSanitizeQuery, collapseRuns_map_unsafe]

/-- C1: with include-wire-headers, exactly one body flag, and the selected
header collection `{"X-Test": ["1","2"]}`, the reconstructed byte stream
is exactly `X-Test: 1\r\nX-Test: 2\r\n\r\n` followed by the selected body
bytes, values in order. -/
theorem wire_reconstruction_exact (r : Record) (opts : Nat)
    (hwire : hasFlag opts writeWire = true)
    (hone : hasFlag opts writeRequestBody ≠ hasFlag opts writeResponseBody)
    (hsel : selectedHeaders r opts = [("X-Test", ["1", "2"])]) :
    buildBuf r opts =
      strBytes "X-Test: 1\r\nX-Test: 2\r\n\r\n" ++
        (if hasFlag opts writeResponseBody then r.body else r.requestBody) := by
  have hw : wireBlock [("X-Test", ["1", "2"])] =
      strBytes "X-Test: 1\r\nX-Test: 2\r\n\r\n" := by decide
  cases hreq : hasFlag opts writeRequestBody <;>
    cases hresp : hasFlag opts writeResponseBody
  · exact absurd (hreq.trans hresp.symm) hone
  · simp [buildBuf, hwire, hreq, hresp, hsel, hw]
  · simp [buildBuf, hwire, hreq, hresp, hsel, hw]
  · exact absurd (hreq.trans hresp.symm) hone

theorem wire_reconstruction_exact_witness :
    hasFlag 5 writeWire = true ∧
    hasFlag 5 writeRequestBody ≠ hasFlag 5 writeResponseBody ∧
    selectedHeaders recXTest 5 = [("X-Test", ["1", "2"])] ∧
    buildBuf recXTest 5 =
      strBytes "X-Test: 1\r\nX-Test: 2\r\n\r\n" ++
        (if hasFlag 5 writeResponseBody then recXTest.body
         else recXTest.requestBody) :=
  ⟨by decide, by decide, by decide,
    wire_reconstruction_exact recXTest 5 (by decide) (by decide) (by decide)⟩

/-- C2: whenever both body flags are set, `replyBinary` writes exactly the
500 reply (status 500 with the fixed status phrase as body), so no record
body bytes, mixed or otherwise, are ever emitted. -/
theorem bothBodyFlags_yields500 (r : Record) (opts : Nat)
    (hreq : hasFlag opts writeRequestBody = true)
    (hresp : hasFlag opts writeResponseBody = true) :
    replyBinary r opts = replyCodeEffect 500 := by
  have h0 : opts ≠ writeNone := by
    intro h
    rw [h] at hreq
    exact absurd hreq (by decide)
  simp [replyBinary, h0, hreq, hresp]

theorem bothBodyFlags_yields500_witness :
    hasFlag 12 writeRequestBody = true ∧
    hasFlag 12 writeResponseBody = true ∧
    replyBinary recXTest 12 = replyCodeEffect 500 :=
  ⟨by decide, by decide,
    bothBodyFlags_yields500 recXTest 12 (by decide) (by decide)⟩

/-- C10 counterexample: in wire-only mode (no body flag set) on a record
whose URL does not parse, `replyBinary` writes a 500 status and its status
phrase, so the response is not left untouched. -/
theorem wireOnly_badURL_writes500 :
    hasFlag writeWire writeRequestBody = false ∧
    hasFlag writeWire writeResponseBody = false ∧
    replyBinary recCTL writeWire = replyCodeEffect 500 ∧
    replyCodeEffect 500 ≠ emptyEffect := by decide

/-- C10 amended: with neither body flag set, `replyBinary` leaves the
response untouched in mode none, and in the wire-only and embed-only
combinations provided the record's URL parses; an unparseable URL instead
yields a 500. -/
theorem noBodyFlags_untouched (r : Record) (opts : Nat)
    (hreq : hasFlag opts writeRequestBody = false)
    (hresp : hasFlag opts writeResponseBody = false)
    (hurl : opts = writeNone ∨ (urlParse r.meta.url).isSome = true) :
    replyBinary r opts = emptyEffect := by
  by_cases h0 : opts = writeNone
  · simp [replyBinary, h0]
  · rcases hurl with h | h
    · exact absurd h h0
    · obtain ⟨u, hu⟩ := Option.isSome_iff_exists.mp h
      simp [replyBinary, h0, hreq, hresp, hu]

theorem noBodyFlags_untouched_witness :
    hasFlag 3 writeRequestBody = false ∧
    hasFlag 3 writeResponseBody = false ∧
    (3 = writeNone ∨ (urlParse recXTest.meta.url).isSome = true) ∧
    replyBinary recXTest 3 = emptyEffect :=
  ⟨by decide, by decide, Or.inr (by decide),
    noBodyFlags_untouched recXTest 3 (by decide) (by decide)
      (Or.inr (by decide))⟩

/-- C9 counterexample: when `res.Count` fails (`countRes = none`) but
`res.All` succeeds, `capturesHandler` still replies with the 200 JSON
success carrying the zero-value `Pages`, so a store failure does produce a
success response. -/
theorem countFailure_still_success :
    capturesHandlerOutcome (some []) none (some 1) =
      CapturesOutcome.success [] 1 0 := rfl

/-- C9 amended: a failure of the listing fetch (`res.All`) and a failure
of the single-transaction load are surfaced as 500; but a failure of the
per-page total count is silently ignored and yields a success response
with `pages = 0`. -/
theorem store_failures_500 (countRes pageParam : Option Nat) (opts : Nat)
    (lookup : Option RawRecord) (h : getCaptureRecord lookup = none) :
    capturesHandlerOutcome none countRes pageParam =
      CapturesOutcome.failure 500 ∧
    recordHandlerEffect lookup opts = replyCodeEffect 500 ∧
    capturesHandlerOutcome (some []) none pageParam =
      CapturesOutcome.success [] (effectivePage pageParam) 0 := by
  refine ⟨rfl, ?_, rfl⟩
  simp [recordHandlerEffect, h]

theorem store_failures_500_witness :
    getCaptureRecord none = none ∧
    (capturesHandlerOutcome none (some 3) (some 2) =
        CapturesOutcome.failure 500 ∧
      recordHandlerEffect none 4 = replyCodeEffect 500 ∧
      capturesHandlerOutcome (some []) none (some 2) =
        CapturesOutcome.success [] (effectivePage (some 2)) 0) :=
  ⟨rfl, store_failures_500 (some 3) (some 2) 4 none rfl⟩

/-- What C3 describes for one term: the term occurs inside host, origin,
path or content-type, or equals method, scheme or status. -/
def termMatch (t : String) (r : Row) : Prop :=
  hasSub r.host t = true ∨ hasSub r.origin t = true ∨
  hasSub r.path t = true ∨ hasSub r.contentType t = true ∨
  r.method = t ∨ r.scheme = t ∨ r.status = t

theorem condsOrFold_eq_true (ts : List String) (acc : Row → Bool) (r : Row) :
    condsOrFold acc ts r = true ↔
      acc r = true ∨ ∃ t ∈ ts, termCond t r = true := by
  induction ts generalizing acc with
  | nil => simp [condsOrFold]
  | cons t ts ih =>
    rw [condsOrFold, ih]
    simp only [Bool.or_eq_true, List.exists_mem_cons_iff]
    tauto

/-- C3: a row matches the built query exactly when some term matches some
field, substring containment for host, origin, path and content-type,
equality for method, scheme and status; terms combine by union. -/
theorem query_matches_iff_any_term (terms : List String) (r : Row) :
    buildConds terms r = true ↔ ∃ t ∈ terms, termMatch t r := by
  rw [buildConds, condsOrFold_eq_true]
  simp only [Bool.false_eq_true, false_or]
  refine exists_congr fun t => and_congr_right fun _ => ?_
  simp [termCond, termMatch, Bool.or_eq_true, beq_iff_eq, or_assoc]

/-- C4: for every store state, query and requested page `p ≥ 1`, the
listing slice is the 50-row window at offset `50*(p-1)` of the matching
rows in ascending identifier order, holds at most 50 rows, the reported
page count is `ceil(total/50)` (characterized by its bounds), and zero
matching rows give an empty slice and zero pages. -/
theorem listing_page_bounds (rows : List Row) (q : String) (p : Nat)
    (hp : 1 ≤ p) :
    (capturesQuery rows q (some p)).requests.length ≤ pageSize ∧
    (capturesQuery rows q (some p)).requests =
      ((matchingRows rows (sanitizeQuery q)).drop
        (pageSize * (p - 1))).take pageSize ∧
    List.Pairwise rowLE (capturesQuery rows q (some p)).requests ∧
    (matchingRows rows (sanitizeQuery q)).length ≤
      pageSize * (capturesQuery rows q (some p)).pages ∧
    pageSize * (capturesQuery rows q (some p)).pages <
      (matchingRows rows (sanitizeQuery q)).length + pageSize ∧
    ((matchingRows rows (sanitizeQuery q)).length = 0 →
      (capturesQuery rows q (some p)).requests = [] ∧
      (capturesQuery rows q (some p)).pages = 0) := by
  have hpage : effectivePage (some p) = p := by
    simp only [effectivePage]
    rw [if_neg (by omega : ¬p < 1)]
  have hsortedBase : List.Pairwise rowLE (sortById rows) :=
    List.sorted_insertionSort rowLE rows
  have hm : List.Pairwise rowLE (matchingRows rows (sanitizeQuery q)) := by
    by_cases hq : sanitizeQuery q = ""
    · simpa [matchingRows, hq] using hsortedBase
    · simpa [matchingRows, hq] using hsortedBase.filter _
  have hreq : (capturesQuery rows q (some p)).requests =
      ((matchingRows rows (sanitizeQuery q)).drop
        (pageSize * (p - 1))).take pageSize := by
    simp [capturesQuery, hpage]
  have hpages : (capturesQuery rows q (some p)).pages =
      ((matchingRows rows (sanitizeQuery q)).length + pageSize - 1) /
        pageSize := by
    simp [capturesQuery]
  refine ⟨?_, hreq, ?_, ?_, ?_, ?_⟩
  · rw [hreq]; exact List.length_take_le _ _
  · rw [hreq]
    exact List.Pairwise.sublist
      ((List.take_sublist _ _).trans (List.drop_sublist _ _)) hm
  · rw [hpages]
    show _ ≤ 50 * ((_ + 50 - 1) / 50)
    omega
  · rw [hpages]
    show 50 * ((_ + 50 - 1) / 50) < _ + 50
    omega
  · intro hzero
    rw [List.length_eq_zero] at hzero
    constructor
    · rw [hreq, hzero]
      simp
    · rw [hpages, hzero]
      rfl

theorem listing_page_bounds_witness :
    1 ≤ 1 ∧
    ((capturesQuery rowsTwo "" (some 1)).requests.length ≤ pageSize ∧
      (capturesQuery rowsTwo "" (some 1)).requests =
        ((matchingRows rowsTwo (sanitizeQuery "")).drop
          (pageSize * (1 - 1))).take pageSize ∧
      List.Pairwise rowLE (capturesQuery rowsTwo "" (some 1)).requests ∧
      (matchingRows rowsTwo (sanitizeQuery "")).length ≤
        pageSize * (capturesQuery rowsTwo "" (some 1)).pages ∧
      pageSize * (capturesQuery rowsTwo "" (some 1)).pages <
        (matchingRows rowsTwo (sanitizeQuery "")).length + pageSize ∧
      ((matchingRows rowsTwo (sanitizeQuery "")).length = 0 →
        (capturesQuery rowsTwo "" (some 1)).requests = [] ∧
        (capturesQuery rowsTwo "" (some 1)).pages = 0)) :=
  ⟨Nat.le_refl 1, listing_page_bounds rowsTwo "" 1 (Nat.le_refl 1)⟩

end Hyperfox
